import Mathlib

/-!
Shallow embedding of `src/git_analyzer.py` (class `GitAnalyzer`), the
commit/diff extraction engine of the repository.

Modelling conventions:
* Python `datetime` values are modelled as `Int` seconds (both
  `datetime.now()` and `datetime.fromtimestamp` land in the same linear
  time scale, which is all the comparisons in the code use);
  `timedelta(days=d)` is `d * 86400` seconds.
* Python `bytes` are `List Nat`, Python `str` produced by decoding is a
  `List Nat` of code points; other strings are Lean `String`.
* Calls into the GitPython library are modelled by `Except`-valued data
  stored on `Repo`/`Commit`: the value records what the library call
  returns, `.error` records that it raises.
* GitPython facts baked into the model, each used where stated:
  - `Diffable.diff(self, other)` asks git for the diff FROM `self` TO
    `other` (`git diff-tree self other`).  The code calls
    `commit.diff(commit.parents[0])`, so in every diff entry it consumes
    the `a`-side is the commit being analysed (the post-change tree) and
    the `b`-side is its first parent (the pre-change tree).  Consequently
    the raw status letter `A` (GitPython `new_file`) marks a path absent
    from the commit itself, i.e. a file the commit DELETED, and status
    `D` (GitPython `deleted_file`) marks a path absent from the parent,
    i.e. a file the commit ADDED.
  - `git.diff.Diff` objects expose no `stats` attribute, so
    `change.stats` raises `AttributeError`; the code guards every such
    access, and the model keeps the attribute as an `Option` so the
    guarded access pattern is represented faithfully.
  - `commit.stats.files` is a dict mapping path to a per-file dict
    `insertions / deletions / lines` (the source comments on this at
    line 127), so Python `sum(commit.stats.files.values())` adds `0 +
    dict` and raises `TypeError` whenever the dict is non-empty.
-/

deriving instance DecidableEq for Except

namespace GitBlog

/-- Errors raised by the underlying git library (GitPython / gitdb):
`badName` is the lookup failure for an unknown revision, `commandFailed`
any other failure of a git invocation. -/
inductive GitError where
  | badName (rev : String)
  | commandFailed (msg : String)
deriving DecidableEq, Repr

/-- Human-readable text of a library error, as interpolated by the
`logger.error(f"...: ..." )` calls in the source. -/
def errMsg : GitError → String
  | GitError.badName rev => rev
  | GitError.commandFailed msg => msg

/-- Python `TypeError`, raised by `sum` over dict values. -/
inductive PyError where
  | typeError
deriving DecidableEq, Repr

/-- Events the module sends to its `logger`; only the varying datum of
each f-string message is kept. -/
inductive LogEvent where
  | info (msg : String)
  | error (msg : String)
deriving DecidableEq, Repr

/-- Value of `commit.stats.files[path]` in GitPython: the per-file dict
with keys `insertions`, `deletions` and `lines`. -/
structure StatDict where
  insertions : Nat
  deletions : Nat
  lines : Nat
deriving DecidableEq, Repr

/-- Model of a dict carrying optional `insertions` / `deletions` keys,
read by the code via `.get(key, 0)`.  GitPython `Diff` objects have no
`stats` attribute at all, so in `DiffEntry` below this sits under an
`Option`: `none` models the `AttributeError` the guarded accesses
absorb. -/
structure DiffStats where
  insertionsVal : Option Nat
  deletionsVal : Option Nat
deriving DecidableEq, Repr

/-- One `git.diff.Diff` object out of `commit.diff(commit.parents[0])`.
Per the diff direction documented in the module docstring, `a_path`
lives in the commit itself (post-change side) and `b_path` in its first
parent (pre-change side); `new_file` is raw status `A` (path absent from
the commit, i.e. deleted by it), `deleted_file` raw status `D` (path
absent from the parent, i.e. added by it).  `diffBytes` is the `diff`
attribute (bytes of the textual hunk; empty for raw-format diffs). -/
structure DiffEntry where
  a_path : Option String
  b_path : Option String
  new_file : Bool
  deleted_file : Bool
  diffBytes : List Nat
  stats : Option DiffStats
deriving DecidableEq, Repr

/-- One GitPython `Commit` as consumed by the analyzer: plain metadata,
the parent hexshas (only emptiness and the head are consumed), the
outcome of the library call `commit.diff(commit.parents[0])`, and the
dict `commit.stats.files` in its insertion order. -/
structure Commit where
  hexsha : String
  authorName : String
  committed_date : Int
  message : String
  parents : List String
  diffFirstParent : Except GitError (List DiffEntry)
  statsFiles : List (String × StatDict)

/-- The opened repository: the outcome of `repo.iter_commits('main')`
(the commits newest-first, or the error the traversal raises) and of
`repo.commit(rev)` for each revision string. -/
structure Repo where
  iterCommitsMain : Except GitError (List Commit)
  commitLookup : String → Except GitError Commit

/-- Python truthiness of an optional string: `None` and `""` are falsy. -/
def pyTruthy : Option String → Bool
  | none => false
  | some s => decide (s ≠ "")

/-- Python `a or b` on optional strings. -/
def pyOrStr (a b : Option String) : Option String :=
  if pyTruthy a then a else b

/-- Python `str.strip()`: the string without leading and trailing
whitespace, computed over the character list. -/
def pyStrip (s : String) : String :=
  String.mk
    (((s.data.dropWhile Char.isWhitespace).reverse.dropWhile
        Char.isWhitespace).reverse)

/-- Python `sum` over the values of `commit.stats.files`: the empty sum
is `0`; otherwise the very first step computes `0 + dict` and raises
`TypeError`. -/
def pySum : List StatDict → Except PyError Nat
  | [] => Except.ok 0
  | _ :: _ => Except.error PyError.typeError

/-- Error handler of `bytes.decode`: `ignore` drops an invalid maximal
subpart, `replace` turns it into `U+FFFD`. -/
inductive DecodeMode where
  | ignore
  | replace
deriving DecidableEq, Repr

/-- Is the byte a UTF-8 continuation byte. -/
def isCont (b : Nat) : Bool := decide (0x80 ≤ b) && decide (b ≤ 0xBF)

/-- Lower bound CPython admits for the second byte after lead `b0`. -/
def cont2lo (b0 : Nat) : Nat :=
  if b0 = 0xE0 then 0xA0 else if b0 = 0xF0 then 0x90 else 0x80

/-- Upper bound CPython admits for the second byte after lead `b0`
(excludes surrogates after `ED` and code points above `U+10FFFF` after
`F4`). -/
def cont2hi (b0 : Nat) : Nat :=
  if b0 = 0xED then 0x9F else if b0 = 0xF4 then 0x8F else 0xBF

/-- Admissibility of the second byte of a multi-byte sequence. -/
def validSecond (b0 b1 : Nat) : Bool :=
  decide (cont2lo b0 ≤ b1) && decide (b1 ≤ cont2hi b0)

/-- What the error handler emits for one invalid maximal subpart before
decoding resumes. -/
def badOut (mode : DecodeMode) (rest : List Nat) : List Nat :=
  match mode with
  | DecodeMode.ignore => rest
  | DecodeMode.replace => 0xFFFD :: rest

/-- Recursion core of the UTF-8 decoder.  Each step consumes at least
one byte and recurses on an untouched suffix of the input while the fuel
drops by exactly one, so with fuel equal to the input length (as
`decodeUtf8` supplies it) the zero-fuel branch is unreachable; fuel only
makes the recursion structural. -/
def decodeUtf8Go (mode : DecodeMode) : Nat → List Nat → List Nat
  | 0, _ => []
  | _, [] => []
  | fuel + 1, b0 :: t0 =>
    if b0 ≤ 0x7F then b0 :: decodeUtf8Go mode fuel t0
    else if b0 < 0xC2 then badOut mode (decodeUtf8Go mode fuel t0)
    else if b0 ≤ 0xDF then
      match t0 with
      | [] => badOut mode []
      | b1 :: t1 =>
        if isCont b1 then
          ((b0 - 0xC0) * 64 + (b1 - 0x80)) :: decodeUtf8Go mode fuel t1
        else badOut mode (decodeUtf8Go mode fuel (b1 :: t1))
    else if b0 ≤ 0xEF then
      match t0 with
      | [] => badOut mode []
      | b1 :: t1 =>
        if validSecond b0 b1 then
          match t1 with
          | [] => badOut mode []
          | b2 :: t2 =>
            if isCont b2 then
              ((b0 - 0xE0) * 4096 + (b1 - 0x80) * 64 + (b2 - 0x80)) ::
                decodeUtf8Go mode fuel t2
            else badOut mode (decodeUtf8Go mode fuel (b2 :: t2))
        else badOut mode (decodeUtf8Go mode fuel (b1 :: t1))
    else if b0 ≤ 0xF4 then
      match t0 with
      | [] => badOut mode []
      | b1 :: t1 =>
        if validSecond b0 b1 then
          match t1 with
          | [] => badOut mode []
          | b2 :: t2 =>
            if isCont b2 then
              match t2 with
              | [] => badOut mode []
              | b3 :: t3 =>
                if isCont b3 then
                  ((b0 - 0xF0) * 262144 + (b1 - 0x80) * 4096 +
                      (b2 - 0x80) * 64 + (b3 - 0x80)) ::
                    decodeUtf8Go mode fuel t3
                else badOut mode (decodeUtf8Go mode fuel (b3 :: t3))
            else badOut mode (decodeUtf8Go mode fuel (b2 :: t2))
        else badOut mode (decodeUtf8Go mode fuel (b1 :: t1))
    else badOut mode (decodeUtf8Go mode fuel t0)

/-- CPython UTF-8 decoding of a byte string under the given error
handler, returning the code points.  Invalid input is consumed by
maximal subparts exactly as CPython does: an invalid lead consumes one
byte; a valid lead consumes itself plus its valid continuation bytes up
to the first offending byte or the end of input, and decoding resumes at
the offending byte. -/
def decodeUtf8 (mode : DecodeMode) (bs : List Nat) : List Nat :=
  decodeUtf8Go mode bs.length bs

/-- Dataclass `CommitInfo` of the source.  `files_changed` keeps
`Option String` elements because the source appends the raw result of
`change.a_path or change.b_path`, which is `None` when both sides are
absent. -/
structure CommitInfo where
  hash : String
  author : String
  date : Int
  message : String
  files_changed : List (Option String)
  additions : Nat
  deletions : Nat
deriving DecidableEq, Repr

/-- Dataclass `FileChange` of the source; `diff_content` holds the code
points of the decoded diff body. -/
structure FileChange where
  file_path : String
  change_type : String
  additions : Nat
  deletions : Nat
  diff_content : List Nat
deriving DecidableEq, Repr

/-- Contribution of one diff entry to the `additions` counter:
`change.stats.get('insertions', 0)` guarded by
`except AttributeError: pass` — GitPython `Diff` has no `stats`
attribute, modelled by the `none` branch contributing `0`. -/
def entryIns (e : DiffEntry) : Nat :=
  match e.stats with
  | none => 0
  | some s => s.insertionsVal.getD 0

/-- Contribution of one diff entry to the `deletions` counter, mirroring
`entryIns`.  The two `+=` lines sit in one `try`, and the attribute
access fails before either addition, so an entry without stats
contributes `0` to both counters. -/
def entryDel (e : DiffEntry) : Nat :=
  match e.stats with
  | none => 0
  | some s => s.deletionsVal.getD 0

/-- Method `GitAnalyzer._extract_commit_info` (source lines 96-141).
With parents: diff against the first parent, collect
`change.a_path or change.b_path` per entry and sum the guarded stats.
Without parents (root commit): list `commit.stats.files` keys, and
`sum(commit.stats.files.values())` raises `TypeError` on any non-empty
dict (its values are dicts), which the `except TypeError` absorbs to
`additions = 0`; `deletions` is never touched and stays `0`. -/
def extract_commit_info (c : Commit) : Except GitError CommitInfo :=
  match c.parents with
  | _ :: _ => do
      let diff ← c.diffFirstParent
      Except.ok
        { hash := c.hexsha.take 8
          author := c.authorName
          date := c.committed_date
          message := pyStrip c.message
          files_changed := diff.map (fun e => pyOrStr e.a_path e.b_path)
          additions := (diff.map entryIns).sum
          deletions := (diff.map entryDel).sum }
  | [] =>
      Except.ok
        { hash := c.hexsha.take 8
          author := c.authorName
          date := c.committed_date
          message := pyStrip c.message
          files_changed := c.statsFiles.map (fun p => some p.1)
          additions :=
            match pySum (c.statsFiles.map (fun p => p.2)) with
            | Except.ok n => n
            | Except.error _ => 0
          deletions := 0 }

/-- The `for commit in self.repo.iter_commits('main')` loop of
`get_recent_commits`: stop (`break`) at the first commit strictly older
than `start_date`, otherwise extract and append; any library error
escapes to the enclosing `try`. -/
def commitLoop (start_date : Int) : List Commit → Except GitError (List CommitInfo)
  | [] => Except.ok []
  | c :: rest =>
    if c.committed_date < start_date then Except.ok []
    else do
      let info ← extract_commit_info c
      let infos ← commitLoop start_date rest
      Except.ok (info :: infos)

/-- Method `GitAnalyzer.get_recent_commits` (source lines 65-94).
`now` stands for `datetime.now()`; `start_date = now - timedelta(days)`.
The whole traversal sits in a `try`: on success the commit list is
returned and an info line logged; on any exception an error line is
logged and the empty list returned. -/
def get_recent_commits (repo : Repo) (days : Nat) (now : Int) :
    List CommitInfo × List LogEvent :=
  let start_date : Int := now - (days : Int) * 86400
  match (do
      let cs ← repo.iterCommitsMain
      commitLoop start_date cs : Except GitError (List CommitInfo)) with
  | Except.ok infos => (infos, [LogEvent.info (toString infos.length)])
  | Except.error e => ([], [LogEvent.error (errMsg e)])

/-- Method `GitAnalyzer._extract_file_change` (source lines 170-214).
`file_path = diff.a_path or diff.b_path`; `if not file_path: return
None` also fires on the empty string.  `new_file` maps to `'A'`,
`deleted_file` to `'D'`, anything else to `'M'`.  The diff body is
decoded with `errors='ignore'`, which is total, and the stats access is
the same guarded pattern as in `extract_commit_info`, so the outer
`except Exception` has no remaining source of exceptions in the model. -/
def extract_file_change (d : DiffEntry) : Option FileChange :=
  match pyOrStr d.a_path d.b_path with
  | none => none
  | some fp =>
    if fp = "" then none
    else
      some
        { file_path := fp
          change_type :=
            if d.new_file then "A" else if d.deleted_file then "D" else "M"
          additions := entryIns d
          deletions := entryDel d
          diff_content := decodeUtf8 DecodeMode.ignore d.diffBytes }

/-- Method `GitAnalyzer.get_file_changes` (source lines 143-168).
Resolve the hash, return `[]` for a root commit, otherwise diff against
the first parent and keep the truthy extraction results; the enclosing
`try` turns any library error into a logged message and `[]`. -/
def get_file_changes (repo : Repo) (commit_hash : String) :
    List FileChange × List LogEvent :=
  match (do
      let c ← repo.commitLookup commit_hash
      match c.parents with
      | _ :: _ => do
          let diff ← c.diffFirstParent
          Except.ok (diff.filterMap extract_file_change)
      | [] => Except.ok ([] : List FileChange) :
        Except GitError (List FileChange)) with
  | Except.ok changes => (changes, [])
  | Except.error e => ([], [LogEvent.error (errMsg e)])

/-! Theorems about the embedded analyzer. -/

/-- C8: when the commit history cannot be iterated at all, the
traversal error is caught, an error event carrying its message goes to
the logger, and the call returns the empty sequence; no exception
reaches the caller (the function is total and always yields a pair). -/
theorem get_recent_commits_iteration_failure (repo : Repo) (days : Nat)
    (now : Int) (e : GitError) (h : repo.iterCommitsMain = Except.error e) :
    get_recent_commits repo days now = ([], [LogEvent.error (errMsg e)]) := by
  simp [get_recent_commits, h, Bind.bind, Except.bind]

/-- Repository whose history iteration raises, as with a corrupt object
store or a missing `main` branch. -/
def c8repo : Repo :=
  { iterCommitsMain := Except.error (GitError.commandFailed "corrupt")
    commitLookup := fun rev => Except.error (GitError.badName rev) }

theorem get_recent_commits_iteration_failure_witness :
    get_recent_commits c8repo 7 1000 = ([], [LogEvent.error "corrupt"]) :=
  get_recent_commits_iteration_failure c8repo 7 1000
    (GitError.commandFailed "corrupt") rfl

/-- C1 (amended): an unknown commit id makes `get_file_changes` catch
the library's lookup error, log it, and return the empty sequence — the
`NotFoundError` is not surfaced to the caller as a failure. -/
theorem get_file_changes_unknown_id (repo : Repo) (commit_hash : String)
    (e : GitError) (h : repo.commitLookup commit_hash = Except.error e) :
    get_file_changes repo commit_hash = ([], [LogEvent.error (errMsg e)]) := by
  simp [get_file_changes, h, Bind.bind, Except.bind]

/-- Repository in which no revision resolves (and with no commits). -/
def c1repo : Repo :=
  { iterCommitsMain := Except.ok []
    commitLookup := fun rev => Except.error (GitError.badName rev) }

/-- C1 (counterexample): with an unresolvable commit id the lookup
raises `NotFoundError`, yet `get_file_changes` returns the empty list as
an ordinary success value — its return type carries no failure at all —
refuting the claim that the call fails and never yields an empty
success. -/
theorem get_file_changes_unknown_id_counterexample :
    c1repo.commitLookup "deadbeef" =
        Except.error (GitError.badName "deadbeef") ∧
      (get_file_changes c1repo "deadbeef").1 = [] := by
  exact ⟨rfl, rfl⟩

theorem get_file_changes_unknown_id_witness :
    get_file_changes c1repo "cafebabe" = ([], [LogEvent.error "cafebabe"]) :=
  get_file_changes_unknown_id c1repo "cafebabe"
    (GitError.badName "cafebabe") rfl

/-- C9: a commit id resolving to a root commit (no parents) makes
`get_file_changes` return the empty sequence. -/
theorem get_file_changes_root_commit (repo : Repo) (commit_hash : String)
    (c : Commit) (hl : repo.commitLookup commit_hash = Except.ok c)
    (hp : c.parents = []) :
    (get_file_changes repo commit_hash).1 = [] := by
  simp [get_file_changes, hl, hp, Bind.bind, Except.bind]

/-- A root commit: no parents, two files in the initial snapshot. -/
def rootCommit : Commit :=
  { hexsha := "aaaaaaaaaa"
    authorName := "alice"
    committed_date := 50
    message := " hi "
    parents := []
    diffFirstParent := Except.ok []
    statsFiles := [("a.txt", ⟨3, 0, 3⟩), ("b.txt", ⟨2, 0, 2⟩)] }

/-- Repository resolving every revision to the root commit. -/
def c9repo : Repo :=
  { iterCommitsMain := Except.ok [rootCommit]
    commitLookup := fun _ => Except.ok rootCommit }

theorem get_file_changes_root_commit_witness :
    (get_file_changes c9repo "aaaaaaaaaa").1 = [] :=
  get_file_changes_root_commit c9repo "aaaaaaaaaa" rootCommit rfl rfl

/-- C2: for every record `extract_file_change` emits, the file path is
the post-change path when both sides are present (in particular when
they differ, as in a rename), and falls back to whichever side is
present when only one side exists.  Recall from the module docstring
that in the entries this code consumes the `a`-side is the commit being
analysed, i.e. the post-change tree, and the `b`-side its first parent,
the pre-change tree, so `diff.a_path or diff.b_path` prefers the
post-change path.  The hypothesis `post ≠ ""` records that git paths are
non-empty strings. -/
theorem extract_file_change_path (d : DiffEntry) (rec : FileChange)
    (h : extract_file_change d = some rec) :
    (∀ post pre, d.a_path = some post → post ≠ "" → d.b_path = some pre →
        post ≠ pre → rec.file_path = post) ∧
    (d.b_path = none → ∀ post, d.a_path = some post → rec.file_path = post) ∧
    (d.a_path = none → ∀ pre, d.b_path = some pre → rec.file_path = pre) := by
  refine ⟨?_, ?_, ?_⟩
  · intro post pre ha hpost hb hne
    simp [extract_file_change, pyOrStr, pyTruthy, ha, hpost] at h
    simp [← h]
  · intro hb post ha
    by_cases hpost : post = ""
    · simp [extract_file_change, pyOrStr, pyTruthy, ha, hb, hpost] at h
    · simp [extract_file_change, pyOrStr, pyTruthy, ha, hpost] at h
      simp [← h]
  · intro ha pre hb
    by_cases hpre : pre = ""
    · simp [extract_file_change, pyOrStr, pyTruthy, ha, hb, hpre] at h
    · simp [extract_file_change, pyOrStr, pyTruthy, ha, hb, hpre] at h
      simp [← h]

/-- Diff entry of a rename: the commit-side (post-change) path differs
from the parent-side (pre-change) path. -/
def renameEntry : DiffEntry :=
  { a_path := some "new.txt"
    b_path := some "old.txt"
    new_file := false
    deleted_file := false
    diffBytes := []
    stats := none }

/-- Record `extract_file_change` produces for `renameEntry`. -/
def renameRec : FileChange :=
  { file_path := "new.txt"
    change_type := "M"
    additions := 0
    deletions := 0
    diff_content := [] }

theorem extract_file_change_path_witness : renameRec.file_path = "new.txt" :=
  (extract_file_change_path renameEntry renameRec (by decide)).1 "new.txt"
    "old.txt" rfl (by decide) rfl (by decide)

/-- C5 (amended): the record's diff body is the entry's raw diff bytes
decoded as UTF-8 with invalid byte sequences dropped (`errors='ignore'`)
rather than replaced; the decoder is a total function, so decoding never
raises and never fails the record. -/
theorem extract_file_change_diff_content (d : DiffEntry) (rec : FileChange)
    (h : extract_file_change d = some rec) :
    rec.diff_content = decodeUtf8 DecodeMode.ignore d.diffBytes := by
  cases hq : pyOrStr d.a_path d.b_path with
  | none => simp [extract_file_change, hq] at h
  | some fp =>
    by_cases hfp : fp = ""
    · simp [extract_file_change, hq, hfp] at h
    · simp [extract_file_change, hq, hfp] at h
      simp [← h]

/-- Modelled from the spec: decoding the diff bytes "with invalid byte
sequences replaced rather than raising", i.e. `errors='replace'`. -/
def decodeUtf8ReplaceSpec (bs : List Nat) : List Nat :=
  decodeUtf8 DecodeMode.replace bs

/-- Diff entry whose textual diff starts with an invalid byte `0xFF`
followed by ASCII `a`. -/
def undecodableEntry : DiffEntry :=
  { a_path := some "f.txt"
    b_path := some "f.txt"
    new_file := false
    deleted_file := false
    diffBytes := [0xFF, 0x61]
    stats := none }

/-- C5 (counterexample): on the byte sequence `FF 61` the code's
`errors='ignore'` decoding yields just `a` (the invalid byte is
dropped), while the decoding the claim describes — invalid sequences
replaced — yields `U+FFFD` followed by `a`; the emitted record carries
the former, so `diffBody` is not the replacement decoding. -/
theorem extract_file_change_diff_content_counterexample :
    (extract_file_change undecodableEntry).map (fun r => r.diff_content) =
        some [0x61] ∧
      decodeUtf8ReplaceSpec [0xFF, 0x61] = [0xFFFD, 0x61] ∧
      ([0x61] : List Nat) ≠ [0xFFFD, 0x61] := by
  exact ⟨by decide, by decide, by decide⟩

/-- Record `extract_file_change` produces for `undecodableEntry`. -/
def undecodableRec : FileChange :=
  { file_path := "f.txt"
    change_type := "M"
    additions := 0
    deletions := 0
    diff_content := [0x61] }

theorem extract_file_change_diff_content_witness :
    undecodableRec.diff_content =
      decodeUtf8 DecodeMode.ignore undecodableEntry.diffBytes :=
  extract_file_change_diff_content undecodableEntry undecodableRec (by decide)

/-- Diff entry the library produces (raw format, diff direction
commit→parent) for a file the commit ADDED: the path exists in the
commit and not in its parent, so walking commit→parent it disappears —
raw status `D`, flag `deleted_file`. -/
def entryFileAdded : DiffEntry :=
  { a_path := some "added.txt"
    b_path := some "added.txt"
    new_file := false
    deleted_file := true
    diffBytes := []
    stats := none }

/-- Diff entry for a file the commit DELETED: absent from the commit,
present in the parent — walking commit→parent it appears, raw status
`A`, flag `new_file`. -/
def entryFileDeleted : DiffEntry :=
  { a_path := some "deleted.txt"
    b_path := some "deleted.txt"
    new_file := true
    deleted_file := false
    diffBytes := []
    stats := none }

/-- Diff entry for a file the commit MODIFIED: present on both sides. -/
def entryFileModified : DiffEntry :=
  { a_path := some "modified.txt"
    b_path := some "modified.txt"
    new_file := false
    deleted_file := false
    diffBytes := []
    stats := none }

/-- Non-root commit that adds `added.txt`, deletes `deleted.txt` and
modifies `modified.txt`; `diffFirstParent` holds the three entries the
library reports for it in the commit→parent direction. -/
def threeWayCommit : Commit :=
  { hexsha := "cccccccccc"
    authorName := "carol"
    committed_date := 70
    message := "three"
    parents := ["aaaaaaaaaa"]
    diffFirstParent :=
      Except.ok [entryFileAdded, entryFileDeleted, entryFileModified]
    statsFiles := [] }

/-- Repository resolving every revision to `threeWayCommit`. -/
def threeWayRepo : Repo :=
  { iterCommitsMain := Except.ok [threeWayCommit]
    commitLookup := fun _ => Except.ok threeWayCommit }

/-- C7: evaluation at the failing input.  On a commit with one added,
one deleted and one modified file, `get_file_changes` emits three
records but labels the added file `D` and the deleted file `A`: the code
classifies by the `new_file` / `deleted_file` flags of
`commit.diff(commit.parents[0])`, whose direction is commit→parent, so
the flags are inverted with respect to the change the commit made.  The
claim (and the source's own comment `'A' (추가)`, i.e. Added) requires
`A`, `D`, `M` here. -/
theorem get_file_changes_classification_inverted :
    ((get_file_changes threeWayRepo "cccccccccc").1.map
        (fun r => (r.file_path, r.change_type))) =
      [("added.txt", "D"), ("deleted.txt", "A"), ("modified.txt", "M")] := by
  decide

/-- Modelled from the spec: "the total of the per-file line totals the
repository library reports for the initial snapshot" of a root commit
(the `lines` figure of each `commit.stats.files` value). -/
def specRootAdditions (c : Commit) : Nat :=
  (c.statsFiles.map (fun p => p.2.lines)).sum

/-- C3 (amended): for a root commit the record lists every file of the
snapshot in enumeration order and `deletions = 0`, but `additions` is
always `0` as well — the values of `commit.stats.files` are dicts, so
`sum(commit.stats.files.values())` raises `TypeError` whenever the
snapshot is non-empty and the handler absorbs it to `0` (and the empty
sum is `0` too). -/
theorem extract_commit_info_root (c : Commit) (hp : c.parents = []) :
    (extract_commit_info c).toOption.map
        (fun i => (i.files_changed, i.additions, i.deletions)) =
      some (c.statsFiles.map (fun p => some p.1), 0, 0) := by
  cases hs : c.statsFiles <;>
    simp [extract_commit_info, hp, hs, pySum, Except.toOption]

/-- Root commit with one file whose per-file line total is `5`. -/
def snapshotRoot : Commit :=
  { hexsha := "dddddddddd"
    authorName := "dana"
    committed_date := 40
    message := "init"
    parents := []
    diffFirstParent := Except.ok []
    statsFiles := [("a.txt", ⟨3, 2, 5⟩)] }

/-- C3 (counterexample): for `snapshotRoot` the library's per-file line
totals sum to `5`, yet the extracted record carries `additions = 0`, so
`additions` does not equal the total the claim prescribes. -/
theorem extract_commit_info_root_additions_counterexample :
    (extract_commit_info snapshotRoot).toOption.map CommitInfo.additions =
        some 0 ∧
      specRootAdditions snapshotRoot = 5 ∧
      (some 0 : Option Nat) ≠ some 5 := by
  exact ⟨by decide, by decide, by decide⟩

theorem extract_commit_info_root_witness :
    (extract_commit_info snapshotRoot).toOption.map
        (fun i => (i.files_changed, i.additions, i.deletions)) =
      some ([some "a.txt"], 0, 0) :=
  extract_commit_info_root snapshotRoot rfl

/-- C4: for a non-root commit whose first-parent diff has `N` entries,
the record's `files_changed` has length `N`, `additions` is the sum of
the entries' insertion counts and `deletions` the sum of their deletion
counts, where an entry lacking statistics (GitPython `Diff` objects
carry none, the guarded access absorbs the `AttributeError`) contributes
`0` to both sums without failing the commit. -/
theorem extract_commit_info_nonroot (c : Commit) (p : String)
    (ps : List String) (hp : c.parents = p :: ps)
    (entries : List DiffEntry) (hd : c.diffFirstParent = Except.ok entries) :
    (extract_commit_info c).toOption.map
        (fun i => (i.files_changed.length, i.additions, i.deletions)) =
      some (entries.length, (entries.map entryIns).sum,
        (entries.map entryDel).sum) ∧
    ∀ e ∈ entries, e.stats = none → entryIns e = 0 ∧ entryDel e = 0 := by
  constructor
  · simp [extract_commit_info, hp, hd, Bind.bind, Except.bind, Except.toOption]
  · intro e _ hs
    simp [entryIns, entryDel, hs]

/-- Diff entry that carries a stats dict (3 insertions, 1 deletion). -/
def entryWithStats : DiffEntry :=
  { a_path := some "x.txt"
    b_path := some "x.txt"
    new_file := false
    deleted_file := false
    diffBytes := []
    stats := some { insertionsVal := some 3, deletionsVal := some 1 } }

/-- Diff entry without statistics. -/
def entryWithoutStats : DiffEntry :=
  { a_path := some "y.txt"
    b_path := some "y.txt"
    new_file := false
    deleted_file := false
    diffBytes := []
    stats := none }

/-- Non-root commit whose first-parent diff has one entry with stats
and one without. -/
def twoEntryCommit : Commit :=
  { hexsha := "bbbbbbbbbb"
    authorName := "bob"
    committed_date := 60
    message := "work"
    parents := ["aaaaaaaaaa"]
    diffFirstParent := Except.ok [entryWithStats, entryWithoutStats]
    statsFiles := [] }

theorem extract_commit_info_nonroot_witness :
    (extract_commit_info twoEntryCommit).toOption.map
        (fun i => (i.files_changed.length, i.additions, i.deletions)) =
      some (2, 3, 1) ∧
    (entryIns entryWithoutStats = 0 ∧ entryDel entryWithoutStats = 0) := by
  have h := extract_commit_info_nonroot twoEntryCommit "aaaaaaaaaa" [] rfl
    [entryWithStats, entryWithoutStats] rfl
  exact ⟨h.1, h.2 entryWithoutStats (by simp) rfl⟩

/-- Sequential extraction of a list of commits, failing at the first
commit whose derivation raises — the shape the traversal loop gives to
the prefix it has already processed. -/
def extractAll : List Commit → Except GitError (List CommitInfo)
  | [] => Except.ok []
  | c :: cs => do
      let i ← extract_commit_info c
      let is ← extractAll cs
      Except.ok (i :: is)

lemma extract_commit_info_date (c : Commit) (i : CommitInfo)
    (h : extract_commit_info c = Except.ok i) : i.date = c.committed_date := by
  cases hp : c.parents with
  | nil =>
    simp [extract_commit_info, hp] at h
    cases h
    rfl
  | cons p ps =>
    cases hd : c.diffFirstParent with
    | error e =>
      simp [extract_commit_info, hp, hd, Bind.bind, Except.bind] at h
    | ok entries =>
      simp [extract_commit_info, hp, hd, Bind.bind, Except.bind] at h
      cases h
      rfl

lemma commitLoop_cons_break (s : Int) (c : Commit) (rest : List Commit)
    (hc : c.committed_date < s) : commitLoop s (c :: rest) = Except.ok [] := by
  simp [commitLoop, hc]

lemma commitLoop_cons_ok (s : Int) (c : Commit) (rest : List Commit)
    (i0 : CommitInfo) (is0 : List CommitInfo)
    (hc : ¬ c.committed_date < s) (he : extract_commit_info c = Except.ok i0)
    (hr : commitLoop s rest = Except.ok is0) :
    commitLoop s (c :: rest) = Except.ok (i0 :: is0) := by
  simp [commitLoop, hc, he, hr, Bind.bind, Except.bind]

lemma commitLoop_cons_error (s : Int) (c : Commit) (rest : List Commit)
    (e : GitError) (hc : ¬ c.committed_date < s)
    (he : extract_commit_info c = Except.error e) :
    commitLoop s (c :: rest) = Except.error e := by
  simp [commitLoop, hc, he, Bind.bind, Except.bind]

lemma commitLoop_ok_date (s : Int) (cs : List Commit)
    (infos : List CommitInfo) (h : commitLoop s cs = Except.ok infos) :
    ∀ i ∈ infos, s ≤ i.date := by
  induction cs generalizing infos with
  | nil =>
    simp [commitLoop] at h
    subst h
    simp
  | cons c rest ih =>
    by_cases hc : c.committed_date < s
    · rw [commitLoop_cons_break s c rest hc] at h
      cases h
      simp
    · cases he : extract_commit_info c with
      | error e =>
        rw [commitLoop_cons_error s c rest e hc he] at h
        cases h
      | ok i0 =>
        cases hr : commitLoop s rest with
        | error e =>
          simp [commitLoop, hc, he, hr, Bind.bind, Except.bind] at h
        | ok is0 =>
          rw [commitLoop_cons_ok s c rest i0 is0 hc he hr] at h
          cases h
          intro i hi
          rcases List.mem_cons.mp hi with h1 | h2
          · subst h1
            rw [extract_commit_info_date c i he]
            exact not_lt.mp hc
          · exact ih is0 hr i h2

lemma commitLoop_append (s : Int) (pre rest : List Commit)
    (preInfos : List CommitInfo)
    (hpre : ∀ p ∈ pre, ¬ p.committed_date < s)
    (hex : extractAll pre = Except.ok preInfos) :
    commitLoop s (pre ++ rest) =
      (commitLoop s rest).map (fun l => preInfos ++ l) := by
  induction pre generalizing preInfos with
  | nil =>
    simp [extractAll] at hex
    subst hex
    cases hcr : commitLoop s rest <;> simp [hcr, Except.map]
  | cons c cs ih =>
    cases he : extract_commit_info c with
    | error e =>
      simp [extractAll, he, Bind.bind, Except.bind] at hex
    | ok i0 =>
      cases hcs : extractAll cs with
      | error e =>
        simp [extractAll, he, hcs, Bind.bind, Except.bind] at hex
      | ok is0 =>
        have hex2 : preInfos = i0 :: is0 := by
          simp [extractAll, he, hcs, Bind.bind, Except.bind] at hex
          exact hex.symm
        subst hex2
        have hc : ¬ c.committed_date < s := hpre c (by simp)
        have ihh := ih is0
          (fun p hp => hpre p (List.mem_cons_of_mem c hp)) hcs
        cases hcr : commitLoop s rest with
        | error e =>
          rw [hcr] at ihh
          have : commitLoop s (c :: (cs ++ rest)) = Except.error e := by
            simp [commitLoop, hc, he, ihh, Bind.bind, Except.bind, Except.map]
          simpa [Except.map] using this
        | ok l =>
          rw [hcr] at ihh
          have : commitLoop s (c :: (cs ++ rest)) =
              Except.ok (i0 :: (is0 ++ l)) := by
            apply commitLoop_cons_ok s c (cs ++ rest) i0 (is0 ++ l) hc he
            simpa [Except.map] using ihh
          simpa [Except.map] using this

lemma grcIterErrorAux (repo : Repo) (days : Nat) (now : Int) (e : GitError)
    (h : repo.iterCommitsMain = Except.error e) :
    get_recent_commits repo days now = ([], [LogEvent.error (errMsg e)]) := by
  simp [get_recent_commits, h, Bind.bind, Except.bind]

lemma grcLoopErrorAux (repo : Repo) (days : Nat) (now : Int)
    (cs : List Commit) (e : GitError)
    (h1 : repo.iterCommitsMain = Except.ok cs)
    (h2 : commitLoop (now - (days : Int) * 86400) cs = Except.error e) :
    get_recent_commits repo days now = ([], [LogEvent.error (errMsg e)]) := by
  simp [get_recent_commits, h1, h2, Bind.bind, Except.bind]

lemma grcOkAux (repo : Repo) (days : Nat) (now : Int)
    (cs : List Commit) (infos : List CommitInfo)
    (h1 : repo.iterCommitsMain = Except.ok cs)
    (h2 : commitLoop (now - (days : Int) * 86400) cs = Except.ok infos) :
    get_recent_commits repo days now =
      (infos, [LogEvent.info (toString infos.length)]) := by
  simp [get_recent_commits, h1, h2, Bind.bind, Except.bind]

/-- C6: for a positive day count, (1) every record the call returns has
a timestamp at least `now - days` (in seconds); and (2) wherever the
traversal order splits as `pre ++ c :: post` with the whole prefix `pre`
inside the window and extracted without error, a commit `c` exactly at
(or after) the cutoff is included — the result is
`pre ++ [c record] ++ rest` provided the remaining scan succeeds — while
a commit `c` strictly before the cutoff terminates the scan: the result
is exactly the records of `pre`, with `c` excluded. -/
theorem get_recent_commits_window (repo : Repo) (days : Nat) (now : Int)
    (_hdays : 0 < days) :
    (∀ i ∈ (get_recent_commits repo days now).1,
        now - (days : Int) * 86400 ≤ i.date) ∧
    (∀ pre c post, repo.iterCommitsMain = Except.ok (pre ++ c :: post) →
      (∀ p ∈ pre, now - (days : Int) * 86400 ≤ p.committed_date) →
      ∀ preInfos, extractAll pre = Except.ok preInfos →
        (c.committed_date < now - (days : Int) * 86400 →
          (get_recent_commits repo days now).1 = preInfos) ∧
        (now - (days : Int) * 86400 ≤ c.committed_date →
          ∀ ci, extract_commit_info c = Except.ok ci →
          ∀ postInfos, commitLoop (now - (days : Int) * 86400) post =
              Except.ok postInfos →
            (get_recent_commits repo days now).1 =
              preInfos ++ ci :: postInfos)) := by
  constructor
  · intro i hi
    cases hiter : repo.iterCommitsMain with
    | error e =>
      rw [grcIterErrorAux repo days now e hiter] at hi
      simp at hi
    | ok cs =>
      cases hloop : commitLoop (now - (days : Int) * 86400) cs with
      | error e =>
        rw [grcLoopErrorAux repo days now cs e hiter hloop] at hi
        simp at hi
      | ok infos =>
        rw [grcOkAux repo days now cs infos hiter hloop] at hi
        exact commitLoop_ok_date _ cs infos hloop i hi
  · intro pre c post hiter hpre preInfos hex
    have hpre2 : ∀ p ∈ pre, ¬ p.committed_date < now - (days : Int) * 86400 :=
      fun p hp => not_lt.mpr (hpre p hp)
    have happ := commitLoop_append (now - (days : Int) * 86400) pre
      (c :: post) preInfos hpre2 hex
    constructor
    · intro hclt
      rw [commitLoop_cons_break _ c post hclt] at happ
      have hloop : commitLoop (now - (days : Int) * 86400)
          (pre ++ c :: post) = Except.ok preInfos := by
        simpa [Except.map] using happ
      rw [grcOkAux repo days now _ _ hiter hloop]
    · intro hcge ci hci postInfos hpost
      rw [commitLoop_cons_ok _ c post ci postInfos (not_lt.mpr hcge) hci
        hpost] at happ
      have hloop : commitLoop (now - (days : Int) * 86400)
          (pre ++ c :: post) = Except.ok (preInfos ++ ci :: postInfos) := by
        simpa [Except.map] using happ
      rw [grcOkAux repo days now _ _ hiter hloop]

/-- Root commit inside the one-day window. -/
def windowCommitA : Commit :=
  { hexsha := "e1e1e1e1"
    authorName := "erin"
    committed_date := 20000
    message := "top"
    parents := []
    diffFirstParent := Except.ok []
    statsFiles := [] }

/-- Root commit exactly at the cutoff `100000 - 86400 = 13600`. -/
def windowCommitB : Commit :=
  { hexsha := "e2e2e2e2"
    authorName := "erin"
    committed_date := 13600
    message := "edge"
    parents := []
    diffFirstParent := Except.ok []
    statsFiles := [] }

/-- Root commit one second older than the cutoff. -/
def windowCommitC : Commit :=
  { hexsha := "e3e3e3e3"
    authorName := "erin"
    committed_date := 13599
    message := "old"
    parents := []
    diffFirstParent := Except.ok []
    statsFiles := [] }

/-- Repository whose `main` history is the three window commits,
newest-first. -/
def windowRepo : Repo :=
  { iterCommitsMain :=
      Except.ok [windowCommitA, windowCommitB, windowCommitC]
    commitLookup := fun rev => Except.error (GitError.badName rev) }

/-- Record extracted for `windowCommitA`. -/
def windowInfoA : CommitInfo :=
  { hash := "e1e1e1e1"
    author := "erin"
    date := 20000
    message := "top"
    files_changed := []
    additions := 0
    deletions := 0 }

/-- Record extracted for `windowCommitB`. -/
def windowInfoB : CommitInfo :=
  { hash := "e2e2e2e2"
    author := "erin"
    date := 13600
    message := "edge"
    files_changed := []
    additions := 0
    deletions := 0 }

theorem get_recent_commits_window_witness :
    (get_recent_commits windowRepo 1 100000).1 =
      [windowInfoA, windowInfoB] := by
  have h := (get_recent_commits_window windowRepo 1 100000 (by decide)).2
    [windowCommitA] windowCommitB [windowCommitC] rfl (by decide)
    [windowInfoA] (by decide)
  have h2 := h.2 (by decide) windowInfoB (by decide) [] (by rfl)
  simpa using h2

/-- C10: `get_recent_commits` is all-or-nothing.  If the traversal has
processed the in-window prefix `pre` successfully and the next in-window
commit's derivation raises, the already-derived records are discarded:
the call returns the empty list (with the error logged), never a partial
prefix. -/
theorem get_recent_commits_all_or_nothing (repo : Repo) (days : Nat)
    (now : Int) (pre : List Commit) (c : Commit) (post : List Commit)
    (hiter : repo.iterCommitsMain = Except.ok (pre ++ c :: post))
    (hpre : ∀ p ∈ pre, now - (days : Int) * 86400 ≤ p.committed_date)
    (preInfos : List CommitInfo) (hex : extractAll pre = Except.ok preInfos)
    (hcin : now - (days : Int) * 86400 ≤ c.committed_date)
    (e : GitError) (hce : extract_commit_info c = Except.error e) :
    get_recent_commits repo days now = ([], [LogEvent.error (errMsg e)]) := by
  have hpre2 : ∀ p ∈ pre, ¬ p.committed_date < now - (days : Int) * 86400 :=
    fun p hp => not_lt.mpr (hpre p hp)
  have happ := commitLoop_append (now - (days : Int) * 86400) pre
    (c :: post) preInfos hpre2 hex
  rw [commitLoop_cons_error _ c post e (not_lt.mpr hcin) hce] at happ
  have hloop : commitLoop (now - (days : Int) * 86400) (pre ++ c :: post) =
      Except.error e := by
    simpa [Except.map] using happ
  exact grcLoopErrorAux repo days now _ e hiter hloop

/-- In-window root commit extracted without error, preceding the failing
one. -/
def soundCommit : Commit :=
  { hexsha := "f1f1f1f1"
    authorName := "finn"
    committed_date := 20000
    message := "fine"
    parents := []
    diffFirstParent := Except.ok []
    statsFiles := [] }

/-- In-window non-root commit whose first-parent diff raises. -/
def raisingCommit : Commit :=
  { hexsha := "f2f2f2f2"
    authorName := "finn"
    committed_date := 15000
    message := "boom"
    parents := ["f1f1f1f1"]
    diffFirstParent := Except.error (GitError.commandFailed "boom")
    statsFiles := [] }

/-- Repository whose second in-window commit fails to derive. -/
def failingRepo : Repo :=
  { iterCommitsMain := Except.ok [soundCommit, raisingCommit]
    commitLookup := fun rev => Except.error (GitError.badName rev) }

/-- Record extracted for `soundCommit`. -/
def soundInfo : CommitInfo :=
  { hash := "f1f1f1f1"
    author := "finn"
    date := 20000
    message := "fine"
    files_changed := []
    additions := 0
    deletions := 0 }

theorem get_recent_commits_all_or_nothing_witness :
    get_recent_commits failingRepo 1 100000 =
      ([], [LogEvent.error "boom"]) :=
  get_recent_commits_all_or_nothing failingRepo 1 100000 [soundCommit]
    raisingCommit [] rfl (by decide) [soundInfo] (by decide) (by decide)
    (GitError.commandFailed "boom") (by rfl)

end GitBlog
